import Mathlib

/-!
# Registry v1 repository controller (`controllers/repositoryapi.go`)

A shallow embedding of the five request handlers of `RepositoryAPIController`
(`PutRepository`, `PutTag`, `PutRepositoryImages`, `GetRepositoryImages`,
`GetRepositoryTags`) and of `Prepare`, followed by theorems about them.

Conventions of the embedding.

* A handler is a function from the request, the controller's `Data` map and the
  store to a `Result`: the response, the store afterwards and the session and
  header writes.  `this.StopRun()` panics with beego's abort value and so ends
  the handler; every `StopRun` site is a leaf returning the status and body set
  just before it.
* A Go run-time panic that is not `StopRun` (index out of range, failed type
  assertion) is the outcome `Outcome.panic`.
* `beego.Debug`/`beego.Error` and `user.Log` write to the log only and are left
  out.
* The `models` package, `utils.DecodeBasicAuth`, `utils.GeneralToken`, the
  configuration and `encoding/json` are not part of the controller source.  The
  store methods are modelled from the specification's data model; the others
  are fields of `Env`.
-/

namespace Wharf

/-! ## Constants of `net/http` -/

def StatusOK : Nat := 200
def StatusBadRequest : Nat := 400
def StatusUnauthorized : Nat := 401
def StatusForbidden : Nat := 403
def StatusNotFound : Nat := 404

/-! ## Data model -/

/-- Modelled from the spec: the `models.Image` entity (its declaration is not in
the controller source).  The handlers read `Uploaded`, `CheckSumed` and `Size`
(an `int64`). -/
structure Image where
  Uploaded : Bool
  CheckSumed : Bool
  Size : Int
deriving DecidableEq

/-- Modelled from the spec: a stored `models.Repository` record.  Fields are
written through `UpdateRepositoryInfo(…, key, value string)`, so a record is a
hash from field name to string value. -/
abbrev Fields := String → Option String

/-- Modelled from the spec: the `models.User` entity, of which the handlers read
`Username`. -/
structure User where
  Username : String
deriving DecidableEq

/-- Key of a Repository: (namespace, name). -/
abbrev RepoKey := String × String

/-- Key of a Tag: (namespace, name, tag). -/
abbrev TagKey := String × String × String

/-- The keyed stores behind the `models` package. -/
structure DB where
  repos : RepoKey → Option Fields
  tags : TagKey → Option String
  images : String → Option Image
  users : String → String → Bool

/-- One element of `[]map[string]string`. -/
abbrev JMap := List (String × String)

/-- Go map indexing `i[k]` on a `map[string]string`: the zero value `""` when
the key is absent. -/
def JMap.index (m : JMap) (k : String) : String :=
  (m.lookup k).getD ""

/-- The store calls the handlers make; `Env.fails` tells which of them return a
non-nil `error`. -/
inductive StoreCall
  | RepositoryGet (ns repo : String)
  | RepositoryGetActived (ns repo : String)
  | RepositoryAdd (ns repo : String)
  | RepositorySetAgent (ns repo : String)
  | RepositoryUpdateInfo (ns repo key value : String)
  | TagGet (ns repo tag : String)
  | TagInsert (ns repo tag : String)
  | TagUpdateImageId (ns repo tag : String)
  | ImageGet (id : String)
  | UserGet (username passwd : String)
deriving DecidableEq

/-- External collaborators of the controller. -/
structure Env where
  /-- `beego.AppConfig.String`. -/
  AppConfig : String → String
  /-- `utils.DecodeBasicAuth`; `none` is a non-nil error. -/
  DecodeBasicAuth : String → Option (String × String)
  /-- `utils.GeneralToken`. -/
  GeneralToken : String → String
  /-- What `json.Unmarshal([]byte(s), &images)` leaves in
  `images []map[string]string`; its error is discarded by the caller. -/
  Unmarshal : String → List JMap
  /-- Which store calls fail. -/
  fails : StoreCall → Bool

/-- A value of the controller's `Data map[interface{}]interface{}`. -/
inductive DataValue
  | str (s : String)
  | user (u : User)
deriving DecidableEq

/-- The controller's `Data` map, keyed by string. -/
abbrev Data := List (String × DataValue)

/-- The incoming request as the handlers read it. -/
structure Request where
  /-- `this.Ctx.Input.Param`. -/
  Param : String → String
  /-- `this.Ctx.Input.Header`. -/
  Header : String → String
  /-- `this.Ctx.Input.CopyBody()`. -/
  Body : String

/-- How a handler ends: a response (status and body), or a Go run-time panic. -/
inductive Outcome
  | respond (status : Nat) (body : String)
  | panic (msg : String)
deriving DecidableEq

/-- Status code of an outcome, if it is a response. -/
def Outcome.status : Outcome → Option Nat
  | .respond s _ => some s
  | .panic _ => none

/-- Body of an outcome, if it is a response. -/
def Outcome.body : Outcome → Option String
  | .respond _ b => some b
  | .panic _ => none

/-- Result of running a handler. -/
structure Result where
  out : Outcome
  db : DB
  /-- `SetSession` writes, in order. -/
  session : List (String × String)
  /-- Response headers set by the handler, in order. -/
  headers : List (String × String)

/-- A handler that stops with a status and body and has written nothing. -/
def halt (db : DB) (status : Nat) (body : String) : Result :=
  { out := .respond status body, db := db, session := [], headers := [] }

/-- A handler that dies of a run-time panic having written nothing. -/
def crash (db : DB) (msg : String) : Result :=
  { out := .panic msg, db := db, session := [], headers := [] }

/-! ## Standard-library functions used by the handlers -/

/-- `strconv.FormatBool`. -/
def FormatBool (b : Bool) : String :=
  if b then "true" else "false"

/-- `strconv.FormatInt(i, 10)`. -/
def FormatInt (i : Int) : String :=
  toString i

/-- Two's-complement wrap of an `int64` result. -/
def wrapInt64 (x : Int) : Int :=
  (x + 2 ^ 63) % 2 ^ 64 - 2 ^ 63

/-- Does the text begin with the pattern (first argument)? -/
def startsWith : List Char → List Char → Bool
  | [], _ => true
  | _ :: _, [] => false
  | p :: ps, c :: cs => p == c && startsWith ps cs

/-- Byte offset of the first occurrence of `sub` in the text, counting from
`n`, or `-1`. -/
def indexFrom (sub : List Char) : List Char → Nat → Int
  | [], n => if startsWith sub [] then (n : Int) else -1
  | c :: cs, n => if startsWith sub (c :: cs) then (n : Int) else indexFrom sub cs (n + c.utf8Size)

/-- `strings.Index(s, sub)`. -/
def stringsIndex (s sub : String) : Int :=
  indexFrom sub.toList s.toList 0

/-- The class `[[:alnum:]]` of Go's `regexp`: ASCII letters and digits. -/
def isAlnum (c : Char) : Bool :=
  c.isAlphanum

/-- A match of the pattern `"([[:alnum:]]+)"` beginning at the head of the
text: an opening quote, the run of alphanumerics after it (non-empty, and
maximal because the next character must be the closing quote, which is not
alphanumeric), and the closing quote.  The result is the capture group. -/
def matchHere : List Char → Option (List Char)
  | [] => none
  | c :: rest =>
    if c = '"' then
      match rest.takeWhile isAlnum, rest.dropWhile isAlnum with
      | g :: gs, d :: _ => if d = '"' then some (g :: gs) else none
      | _, _ => none
    else none

/-- Leftmost match of the pattern in the text. -/
def findMatch : List Char → Option (List Char)
  | [] => none
  | c :: cs =>
    match matchHere (c :: cs) with
    | some g => some g
    | none => findMatch cs

/-- `regexp.MustCompile("\"([[:alnum:]]+)\"").FindStringSubmatch(s)`: the whole
match and the capture group, or `nil` (the empty slice) when there is no
match. -/
def FindStringSubmatch (s : String) : List String :=
  match findMatch s.toList with
  | some g => ["\"" ++ String.mk g ++ "\"", String.mk g]
  | none => []

/-! ## The `models` package -/

/-- Modelled from the spec: `Repository.Get(namespace, repository, sign)`, which
is not in the controller source.  Loads the record keyed by (namespace, name);
`none` is a non-nil error, `some none` is `has == false`. -/
def Repository.Get (env : Env) (db : DB) (ns repo _sign : String) : Option (Option Fields) :=
  if env.fails (.RepositoryGet ns repo) then none else some (db.repos (ns, repo))

/-- Modelled from the spec: the `Uploaded` flag of a record. -/
def Fields.Uploaded (r : Fields) : Bool :=
  r "Uploaded" == some "true"

/-- Modelled from the spec: the `Checksumed` flag of a record. -/
def Fields.Checksumed (r : Fields) : Bool :=
  r "Checksumed" == some "true"

/-- Modelled from the spec: the `Privated` flag of a record. -/
def Fields.Privated (r : Fields) : Bool :=
  r "Privated" == some "true"

/-- Modelled from the spec: the `JSON` field (the manifest bytes) of a record. -/
def Fields.JSON (r : Fields) : String :=
  (r "JSON").getD ""

/-- Modelled from the spec: `Repository.GetActived(namespace, repository)`, which
is not in the controller source.  A repository is active when it exists and its
uploaded flag is true. -/
def Repository.GetActived (env : Env) (db : DB) (ns repo : String) : Option (Option Fields) :=
  if env.fails (.RepositoryGetActived ns repo) then none
  else
    match db.repos (ns, repo) with
    | some r => if r.Uploaded then some (some r) else some none
    | none => some none

/-- Write one field of a record. -/
def Fields.set (r : Fields) (key value : String) : Fields :=
  fun f => if f = key then some value else r f

/-- Modelled from the spec: `Repository.Add(namespace, repository, organization,
json)`, which is not in the controller source.  Create-or-replace of the record
with the manifest bytes; privacy defaults to public and the completion flags
are not set.  Its result is discarded by the caller, so a failing call leaves
the store as it was. -/
def Repository.Add (env : Env) (db : DB) (ns repo _organization json : String) : DB :=
  if env.fails (.RepositoryAdd ns repo) then db
  else
    { db with repos := fun k =>
        if k = (ns, repo) then some (Fields.set (fun _ => none) "JSON" json) else db.repos k }

/-- Modelled from the spec: `Repository.SetAgent`, which is not in the controller
source.  Writes the user-agent string of an existing record. -/
def Repository.SetAgent (env : Env) (db : DB) (ns repo _organization agent : String) : DB :=
  if env.fails (.RepositorySetAgent ns repo) then db
  else
    { db with repos := fun k =>
        if k = (ns, repo) then (db.repos k).map (fun r => r.set "Agent" agent) else db.repos k }

/-- Modelled from the spec: `Repository.UpdateRepositoryInfo(namespace,
repository, sign, key, value)`, which is not in the controller source.  Writes
the field named `key` of the record; `none` is a non-nil error, which leaves the
store as it was. -/
def Repository.UpdateRepositoryInfo (env : Env) (db : DB) (ns repo _sign key value : String) :
    Option DB :=
  if env.fails (.RepositoryUpdateInfo ns repo key value) then none
  else
    some { db with repos := fun k =>
        if k = (ns, repo) then (db.repos k).map (fun r => r.set key value) else db.repos k }

/-- Modelled from the spec: `Tag.Get(namespace, repository, sign, tag)`, which is
not in the controller source.  `none` is a non-nil error, otherwise whether a
mapping exists for the key. -/
def Tag.Get (env : Env) (db : DB) (ns repo _sign tag : String) : Option Bool :=
  if env.fails (.TagGet ns repo tag) then none else some (db.tags (ns, repo, tag)).isSome

/-- Modelled from the spec: `Tag.UpdateImageId`, which is not in the controller
source.  Overwrites the image id of an existing mapping. -/
def Tag.UpdateImageId (env : Env) (db : DB) (ns repo _sign tag imageId : String) : Option DB :=
  if env.fails (.TagUpdateImageId ns repo tag) then none
  else
    some { db with tags := fun k =>
        if k = (ns, repo, tag) then (db.tags k).map (fun _ => imageId) else db.tags k }

/-- Modelled from the spec: `Tag.Insert`, which is not in the controller source.
Stores a mapping under the key. -/
def Tag.Insert (env : Env) (db : DB) (ns repo _sign tag imageId : String) : Option DB :=
  if env.fails (.TagInsert ns repo tag) then none
  else
    some { db with tags := fun k => if k = (ns, repo, tag) then some imageId else db.tags k }

/-- Modelled from the spec: `Image.Get(id)`, which is not in the controller
source.  `none` is a non-nil error, `some none` is `has == false`. -/
def Image.Get (env : Env) (db : DB) (id : String) : Option (Option Image) :=
  if env.fails (.ImageGet id) then none else some (db.images id)

/-- Modelled from the spec: `User.Get(username, passwd, true)`, which is not in
the controller source.  Identity lookup by (username, password). -/
def User.Get (env : Env) (db : DB) (username passwd : String) : Option Bool :=
  if env.fails (.UserGet username passwd) then none else some (db.users username passwd)

/-! ## `Prepare` -/

/-- How `Prepare` ends: stopped with a response, or the handler runs with the
`Data` map that `Prepare` filled. -/
inductive Prepared
  | stop (status : Nat) (body : String)
  | continue (data : Data)
deriving DecidableEq

/-- The three headers `Prepare` sets on every response. -/
def PrepareHeaders (env : Env) : List (String × String) :=
  [("X-Docker-Registry-Version", env.AppConfig "docker::Version"),
   ("X-Docker-Registry-Config", env.AppConfig "docker::Config"),
   ("X-Docker-Encrypt", env.AppConfig "docker::Encrypt")]

/-- `RepositoryAPIController.Prepare`: Basic-Auth check in standalone mode.  On
success the user name and password are stored under the keys `"username"` and
`"passwd"` of `Data`. -/
def Prepare (env : Env) (req : Request) (db : DB) : Prepared :=
  if env.AppConfig "docker::Standalone" == "true" then
    if (req.Header "Authorization").length == 0 then
      .stop StatusUnauthorized "\x7b\"错误\":\"服务器只支持 Basic Auth 验证模式，请联系系统管理员\"\x7d"
    else if stringsIndex (req.Header "Authorization") "Basic" == -1 then
      .stop StatusUnauthorized "\x7b\"错误\":\"HTTP Header 的 Authorization 格式错误\"\x7d"
    else
      match env.DecodeBasicAuth (req.Header "Authorization") with
      | none =>
        .stop StatusUnauthorized "\x7b\"错误\":\"解码 HTTP Header 的 Basic Auth 信息错误\"\x7d"
      | some (username, passwd) =>
        match User.Get env db username passwd with
        | none => .stop StatusUnauthorized "\x7b\"错误\":\"查询用户错误\"\x7d"
        | some has =>
          if has == true then
            .continue [("username", .str username), ("passwd", .str passwd)]
          else
            .stop StatusForbidden "\x7b\"错误\":\"没有查询到用户数据\"\x7d"
  else
    .stop StatusForbidden "\x7b\"错误\":\"服务器只支持 Basic Auth 验证模式，请联系系统管理员\"\x7d"

/-! ## The handlers -/

/-- `RepositoryAPIController.PutRepository`. -/
def PutRepository (env : Env) (req : Request) (data : Data) (db : DB) : Result :=
  let organization := ""
  match data.lookup "username" with
  | some (.str username) =>
    match data.lookup "passwd" with
    | some (.str passwd) =>
      let namespace_ := req.Param ":namespace"
      let repository := req.Param ":repo_name"
      if username != namespace_ then
        halt db StatusBadRequest "\x7b\"错误\":\"用户名和仓库的命名空间不同\"\x7d"
      else
        let db1 := Repository.Add env db namespace_ repository organization req.Body
        let db2 := Repository.SetAgent env db1 namespace_ repository organization
          (req.Header "User-Agent")
        let token := env.GeneralToken (username ++ passwd)
        let wantsToken := req.Header "X-Docker-Token" == "true"
        { out := .respond StatusOK "\"\""
          db := db2
          session :=
            (if wantsToken then [("token", token)] else []) ++
              [("namespace", namespace_), ("repository", repository), ("access", "write")]
          headers :=
            (if wantsToken then [("X-Docker-Token", token), ("WWW-Authenticate", token)]
              else []) ++
              [("Content-Type", "application/json;charset=UTF-8"),
               ("X-Docker-Endpoints", env.AppConfig "docker::Endpoints")] }
    | _ => crash db "interface conversion: Data[\"passwd\"] is not string"
  | _ => crash db "interface conversion: Data[\"username\"] is not string"

/-- `RepositoryAPIController.PutTag`.  The `has` of `repo.Get` is overwritten by
the `has` of `tag.Get` before it is read; `imageIds[1]` is evaluated as an
argument, before the store call it is passed to. -/
def PutTag (env : Env) (req : Request) (_data : Data) (db : DB) : Result :=
  let namespace_ := req.Param ":namespace"
  let repository := req.Param ":repo_name"
  match Repository.Get env db namespace_ repository "User" with
  | none => halt db StatusBadRequest "\x7b\"error\":\"Search repository error.\"\x7d"
  | some _ =>
    match Tag.Get env db namespace_ repository "User" (req.Param ":tag") with
    | none => halt db StatusBadRequest "\x7b\"error\":\"Search tag encounter error.\"\x7d"
    | some has =>
      let imageIds := FindStringSubmatch req.Body
      if has == true then
        match imageIds.get? 1 with
        | none => crash db "index out of range [1]"
        | some imageId =>
          match Tag.UpdateImageId env db namespace_ repository "User" (req.Param ":tag")
              imageId with
          | none => halt db StatusBadRequest "\x7b\"error\":\"Update the tag data error.\"\x7d"
          | some db1 =>
            { out := .respond StatusOK "\"\"", db := db1, session := []
              headers := [("Content-Type", "application/json;charset=UTF-8")] }
      else
        match imageIds.get? 1 with
        | none => crash db "index out of range [1]"
        | some imageId =>
          match Tag.Insert env db namespace_ repository "User" (req.Param ":tag") imageId with
          | none =>
            halt db StatusBadRequest "\x7b\"error\":\"Create the tag record error.\"\x7d"
          | some db1 =>
            { out := .respond StatusOK "\"\"", db := db1, session := []
              headers := [("Content-Type", "application/json;charset=UTF-8")] }

/-- How the `for _, i := range images` loop of `PutRepositoryImages` ends:
stopped by `StopRun`, or left (by `break` or exhaustion) with the two flags and
the accumulated size. -/
inductive LoopExit
  | stop (status : Nat) (body : String)
  | done (uploaded checksumed : Bool) (size : Int)
deriving DecidableEq

/-- The loop over the decoded manifest in `PutRepositoryImages`, with `size` the
running total. -/
def imagesLoop (env : Env) (db : DB) : List JMap → Int → LoopExit
  | [], size => .done true true size
  | i :: rest, size =>
    match Image.Get env db (i.index "id") with
    | none => .stop StatusBadRequest "\x7b\"error\":\"Search image error.\"\x7d"
    | some none => .stop StatusNotFound "\x7b\"error\":\"Cloud not found image.\"\x7d"
    | some (some image) =>
      if image.Uploaded == false then .done false true size
      else if image.CheckSumed == false then .done true false size
      else imagesLoop env db rest (wrapInt64 (size + image.Size))

/-- The three `UpdateRepositoryInfo` calls that end `PutRepositoryImages`.  The
third call writes the size under the key `"Checksumed"`, as the source does. -/
def finalizeWrites (env : Env) (db : DB) (namespace_ repository : String) (size : Int) :
    Result :=
  match Repository.UpdateRepositoryInfo env db namespace_ repository "User" "Uploaded"
      (FormatBool true) with
  | none =>
    halt db StatusBadRequest
      "\x7b\"error\":\"Update the repository uploaded flag error, please try again.\"\x7d"
  | some db1 =>
    match Repository.UpdateRepositoryInfo env db1 namespace_ repository "User" "Checksumed"
        (FormatBool true) with
    | none =>
      halt db1 StatusBadRequest
        "\x7b\"error\":\"Update the repository checksumed flag error, please try again.\"\x7d"
    | some db2 =>
      match Repository.UpdateRepositoryInfo env db2 namespace_ repository "User" "Checksumed"
          (FormatInt size) with
      | none =>
        halt db2 StatusBadRequest
          "\x7b\"error\":\"Update the repository size error, please try again.\"\x7d"
      | some db3 =>
        { out := .respond StatusOK "\"\"", db := db3, session := []
          headers := [("Content-Type", "application/json;charset=UTF-8")] }

/-- `RepositoryAPIController.PutRepositoryImages` (finalize). -/
def PutRepositoryImages (env : Env) (req : Request) (_data : Data) (db : DB) : Result :=
  let namespace_ := req.Param ":namespace"
  let repository := req.Param ":repo_name"
  match Repository.Get env db namespace_ repository "User" with
  | none => halt db StatusBadRequest "\x7b\"error\":\"Search repository error.\"\x7d"
  | some none => halt db StatusNotFound "\x7b\"error\":\"Cloud not found repository.\"\x7d"
  | some (some repo) =>
    match imagesLoop env db (env.Unmarshal repo.JSON) 0 with
    | .stop status body => halt db status body
    | .done uploaded checksumed size =>
      if uploaded == false then
        halt db StatusBadRequest
          "\x7b\"error\":\"The image layer upload not complete, please try again.\"\x7d"
      else if checksumed == false then
        halt db StatusBadRequest
          "\x7b\"error\":\"The image layer upload checksumed error, please try again.\"\x7d"
      else finalizeWrites env db namespace_ repository size

/-- `RepositoryAPIController.GetRepositoryImages`.  The requester is read from
`Data["user"]` by a type assertion to `*models.User`. -/
def GetRepositoryImages (env : Env) (req : Request) (data : Data) (db : DB) : Result :=
  let namespace_ := req.Param ":namespace"
  let repository := req.Param ":repo_name"
  let success (repo : Fields) : Result :=
    { out := .respond StatusOK repo.JSON, db := db, session := [("access", "read")]
      headers := [("Content-Type", "application/json;charset=UTF-8"),
                  ("X-Docker-Endpoints", env.AppConfig "docker::Endpoints")] }
  match Repository.GetActived env db namespace_ repository with
  | none => halt db StatusBadRequest "\x7b\"error\":\"Search repository error.\"\x7d"
  | some none => halt db StatusNotFound "\x7b\"error\":\"Cloud not found repository.\"\x7d"
  | some (some repo) =>
    if repo.Privated == true then
      match data.lookup "user" with
      | some (.user user) =>
        if user.Username != namespace_ then
          halt db StatusUnauthorized "\x7b\"error\":\"Download private repository error.\"\x7d"
        else success repo
      | _ => crash db "interface conversion: Data[\"user\"] is not *models.User"
    else success repo

/-- `RepositoryAPIController.GetRepositoryTags`.  The body of
`if repo.Privated == true` holds only comments. -/
def GetRepositoryTags (env : Env) (req : Request) (_data : Data) (db : DB) : Result :=
  let namespace_ := req.Param ":namespace"
  let repository := req.Param ":repo_name"
  match Repository.GetActived env db namespace_ repository with
  | none => halt db StatusBadRequest "\x7b\"error\":\"Search repository error.\"\x7d"
  | some none => halt db StatusNotFound "\x7b\"error\":\"Cloud not found repository.\"\x7d"
  | some (some _repo) =>
    { out := .respond StatusOK "", db := db, session := []
      headers := [("Content-Type", "application/json;charset=UTF-8"),
                  ("X-Docker-Endpoints", env.AppConfig "docker::Endpoints")] }

/-! ## Predicates used in the statements -/

/-- The manifest entry refers to an Image that exists, is uploaded and is
checksummed. -/
def entryComplete (db : DB) (i : JMap) : Bool :=
  match db.images (i.index "id") with
  | some image => image.Uploaded && image.CheckSumed
  | none => false

/-- The repository named by the request exists and every entry of its decoded
manifest is complete. -/
def manifestComplete (env : Env) (req : Request) (db : DB) : Bool :=
  match db.repos (req.Param ":namespace", req.Param ":repo_name") with
  | some repo => (env.Unmarshal repo.JSON).all (entryComplete db)
  | none => false

/-- The uploaded flag of the repository stored under a key (false when there is
no record). -/
def repoUploaded (db : DB) (k : RepoKey) : Bool :=
  match db.repos k with
  | some repo => repo.Uploaded
  | none => false

/-- The checksummed flag of the repository stored under a key (false when there
is no record). -/
def repoChecksumed (db : DB) (k : RepoKey) : Bool :=
  match db.repos k with
  | some repo => repo.Checksumed
  | none => false

/-- A named field of the repository stored under a key. -/
def repoField (db : DB) (k : RepoKey) (field : String) : Option String :=
  match db.repos k with
  | some repo => repo field
  | none => none

/-- The manifest entry refers to an Image that exists and is not uploaded. -/
def entryNotUploaded (db : DB) (i : JMap) : Bool :=
  match db.images (i.index "id") with
  | some image => image.Uploaded == false
  | none => false

/-- The manifest entry refers to an image id that has no Image record. -/
def entryMissing (db : DB) (i : JMap) : Bool :=
  (db.images (i.index "id")).isNone

/-- Running total of the loop after a list of existing images, from `size`. -/
def sizeAfter (db : DB) : List JMap → Int → Int
  | [], size => size
  | i :: rest, size =>
    match db.images (i.index "id") with
    | some image => sizeAfter db rest (wrapInt64 (size + image.Size))
    | none => sizeAfter db rest size

/-! ## Concrete requests and stores -/

/-- Manifest of the push of `alice/demo`: two entries, `img1` and `img2`. -/
def demoManifest : String :=
  "[\x7b\"id\":\"img1\",\"Tag\":\"latest\"\x7d,\x7b\"id\":\"img2\",\"Tag\":\"latest\"\x7d]"

/-- The decoded `demoManifest`. -/
def demoEntries : List JMap :=
  [[("id", "img1"), ("Tag", "latest")], [("id", "img2"), ("Tag", "latest")]]

/-- Standalone configuration, credentials `alice:pw` and `bob:pw`, and no
failing store call. -/
def demoEnv : Env :=
  { AppConfig := fun k => if k = "docker::Standalone" then "true" else ""
    DecodeBasicAuth := fun h =>
      if h = "Basic YWxpY2U6cHc=" then some ("alice", "pw")
      else if h = "Basic Ym9iOnB3" then some ("bob", "pw")
      else none
    GeneralToken := fun s => s
    Unmarshal := fun s => if s = demoManifest then demoEntries else []
    fails := fun _ => false }

/-- A request on `alice/demo`, tag `latest`, with the given `Authorization`
header and body. -/
def demoRequest (authorization body : String) : Request :=
  { Param := fun k =>
      if k = ":namespace" then "alice"
      else if k = ":repo_name" then "demo"
      else if k = ":tag" then "latest"
      else ""
    Header := fun k => if k = "Authorization" then authorization else ""
    Body := body }

/-- The `Authorization` header of `alice:pw`. -/
def aliceAuth : String := "Basic YWxpY2U6cHc="

/-- The `Authorization` header of `bob:pw`. -/
def bobAuth : String := "Basic Ym9iOnB3"

/-- The record of `alice/demo` as `PutRepository` leaves it, with the given
privacy and uploaded fields. -/
def demoRecord (privated uploaded : String) : Fields :=
  fun f =>
    if f = "JSON" then some demoManifest
    else if f = "Privated" then some privated
    else if f = "Uploaded" then some uploaded
    else none

/-- An image store holding at most `img1` and `img2`. -/
def demoImages (img1 img2 : Option Image) : String → Option Image :=
  fun id => if id = "img1" then img1 else if id = "img2" then img2 else none

/-- A store with users `alice` and `bob`, the repository `alice/demo` (when a
record is given), no tags and the given images. -/
def demoDB (repo : Option Fields) (images : String → Option Image) : DB :=
  { repos := fun k => if k = ("alice", "demo") then repo else none
    tags := fun _ => none
    images := images
    users := fun u p => (u == "alice" || u == "bob") && p == "pw" }

/-- A store as `demoDB` in which the tag `alice/demo:latest` points to an image
id. -/
def demoTagged (repo : Option Fields) (imageId : String) : DB :=
  { demoDB repo (demoImages none none) with
    tags := fun k => if k = ("alice", "demo", "latest") then some imageId else none }

/-- The `Data` map `Prepare` leaves for `alice:pw`. -/
def aliceData : Data := [("username", .str "alice"), ("passwd", .str "pw")]

/-- The `Data` map `Prepare` leaves for `bob:pw`. -/
def bobData : Data := [("username", .str "bob"), ("passwd", .str "pw")]

/-- The record of `alice/demo` right after `PutRepository`: public, not yet
uploaded. -/
def pushedRecord : Fields := demoRecord "false" "false"

/-- The store of the push of `alice/demo` before finalize, with the given
images. -/
def pushDB (img1 img2 : Option Image) : DB :=
  demoDB (some pushedRecord) (demoImages img1 img2)

/-- A request body that is not JSON; `demoEnv` decodes it to no entries, as
`json.Unmarshal` leaves the slice nil on a syntax error. -/
def brokenManifest : String := "this is not JSON"

/-! ## Finalize (`PutRepositoryImages`) -/

/-- The loop runs through a prefix of complete entries whose lookups succeed and
continues on the rest with the accumulated size. -/
theorem imagesLoop_append (env : Env) (db : DB) (pre rest : List JMap) (size : Int)
    (hpre : ∀ j ∈ pre, entryComplete db j = true)
    (hok : ∀ j ∈ pre, env.fails (.ImageGet (j.index "id")) = false) :
    imagesLoop env db (pre ++ rest) size = imagesLoop env db rest (sizeAfter db pre size) := by
  induction pre generalizing size with
  | nil => rfl
  | cons j pre ih =>
    have hj := hpre j (List.mem_cons_self _ _)
    have hf := hok j (List.mem_cons_self _ _)
    have hpre' : ∀ k ∈ pre, entryComplete db k = true :=
      fun k hk => hpre k (List.mem_cons_of_mem _ hk)
    have hok' : ∀ k ∈ pre, env.fails (.ImageGet (k.index "id")) = false :=
      fun k hk => hok k (List.mem_cons_of_mem _ hk)
    unfold entryComplete at hj
    cases him : db.images (j.index "id") with
    | none => simp [him] at hj
    | some image =>
      simp [him] at hj
      simp [imagesLoop, Image.Get, hf, him, hj.1, hj.2, sizeAfter, ih _ hpre' hok']

/-- The loop leaves both flags true only when every entry is complete. -/
theorem imagesLoop_done_complete (env : Env) (db : DB) (l : List JMap) (size size' : Int)
    (h : imagesLoop env db l size = .done true true size') :
    l.all (entryComplete db) = true := by
  induction l generalizing size with
  | nil => rfl
  | cons j l ih =>
    simp only [imagesLoop, Image.Get] at h
    cases hf : env.fails (.ImageGet (j.index "id")) with
    | true => simp [hf] at h
    | false =>
      cases him : db.images (j.index "id") with
      | none => simp [hf, him] at h
      | some image =>
        simp only [hf, him] at h
        cases hu : image.Uploaded with
        | false => simp [hu] at h
        | true =>
          cases hc : image.CheckSumed with
          | false => simp [hu, hc] at h
          | true =>
            simp [hu, hc] at h
            simp [List.all_cons, entryComplete, him, hu, hc, ih _ h]

/-- The loop stops only with 400 or 404. -/
theorem imagesLoop_stop_status (env : Env) (db : DB) (l : List JMap) (size : Int)
    (status : Nat) (body : String) (h : imagesLoop env db l size = .stop status body) :
    status = StatusBadRequest ∨ status = StatusNotFound := by
  induction l generalizing size with
  | nil => simp [imagesLoop] at h
  | cons j l ih =>
    simp only [imagesLoop, Image.Get] at h
    cases hf : env.fails (.ImageGet (j.index "id")) with
    | true =>
      simp [hf] at h
      exact Or.inl h.1.symm
    | false =>
      cases him : db.images (j.index "id") with
      | none =>
        simp [hf, him] at h
        exact Or.inr h.1.symm
      | some image =>
        simp only [hf, him] at h
        cases hu : image.Uploaded with
        | false => simp [hu] at h
        | true =>
          cases hc : image.CheckSumed with
          | false => simp [hu, hc] at h
          | true =>
            simp [hu, hc] at h
            exact ih _ h

/-- When the repository is missing or some manifest entry is not complete, the
handler stops with status 400 or 404, having written nothing. -/
theorem PutRepositoryImages_incomplete (env : Env) (req : Request) (data : Data) (db : DB)
    (h : manifestComplete env req db = false) :
    ∃ status body, PutRepositoryImages env req data db = halt db status body ∧
      (status = StatusBadRequest ∨ status = StatusNotFound) := by
  unfold manifestComplete at h
  unfold PutRepositoryImages Repository.Get
  cases hf : env.fails (.RepositoryGet (req.Param ":namespace") (req.Param ":repo_name")) with
  | true =>
    exact ⟨StatusBadRequest, "\x7b\"error\":\"Search repository error.\"\x7d", by simp [hf],
      Or.inl rfl⟩
  | false =>
    cases hr : db.repos (req.Param ":namespace", req.Param ":repo_name") with
    | none =>
      exact ⟨StatusNotFound, "\x7b\"error\":\"Cloud not found repository.\"\x7d", by simp [hf, hr],
        Or.inr rfl⟩
    | some repo =>
      simp only [hr] at h
      cases hl : imagesLoop env db (env.Unmarshal repo.JSON) 0 with
      | stop status body =>
        exact ⟨status, body, by simp [hf, hr, hl], imagesLoop_stop_status env db _ _ _ _ hl⟩
      | done uploaded checksumed size =>
        cases uploaded with
        | false =>
          exact ⟨StatusBadRequest,
            "\x7b\"error\":\"The image layer upload not complete, please try again.\"\x7d",
            by simp [hf, hr, hl], Or.inl rfl⟩
        | true =>
          cases checksumed with
          | false =>
            exact ⟨StatusBadRequest,
              "\x7b\"error\":\"The image layer upload checksumed error, please try again.\"\x7d",
              by simp [hf, hr, hl], Or.inl rfl⟩
          | true =>
            have := imagesLoop_done_complete env db _ _ _ hl
            rw [this] at h
            cases h

/-- A handler stopped with 400 or 404 has not answered 200 and has left the store
as it was. -/
theorem halt_not_ok (db : DB) (res : Result) (status : Nat) (body : String)
    (h : res = halt db status body)
    (hs : status = StatusBadRequest ∨ status = StatusNotFound) :
    (∃ s b, res.out = .respond s b ∧ s ≠ StatusOK) ∧ res.db = db := by
  subst h
  refine ⟨⟨status, body, rfl, ?_⟩, rfl⟩
  rcases hs with hs | hs <;> simp [hs, StatusOK, StatusBadRequest, StatusNotFound]

/-- With the repository found and every entry complete and looked up without
error, the handler goes on to the three writes with the summed size. -/
theorem PutRepositoryImages_complete (env : Env) (req : Request) (data : Data) (db : DB)
    (repo : Fields)
    (hf : env.fails (.RepositoryGet (req.Param ":namespace") (req.Param ":repo_name")) = false)
    (hr : db.repos (req.Param ":namespace", req.Param ":repo_name") = some repo)
    (hall : ∀ j ∈ env.Unmarshal repo.JSON, entryComplete db j = true)
    (hok : ∀ j ∈ env.Unmarshal repo.JSON, env.fails (.ImageGet (j.index "id")) = false) :
    PutRepositoryImages env req data db =
      finalizeWrites env db (req.Param ":namespace") (req.Param ":repo_name")
        (sizeAfter db (env.Unmarshal repo.JSON) 0) := by
  have h := imagesLoop_append env db (env.Unmarshal repo.JSON) [] 0 hall hok
  rw [List.append_nil] at h
  simp [PutRepositoryImages, Repository.Get, hf, hr, h, imagesLoop]

/-- C1: at the push of `alice/demo` with `img1` (size 100) and `img2` (size 250),
both uploaded and checksummed, finalize answers 200 with body `""`, but the sum
350 is written under the key `"Checksumed"` and the `Size` field is not written
(it stays absent). -/
theorem PutRepositoryImages_size_written_under_Checksumed :
    (PutRepositoryImages demoEnv (demoRequest aliceAuth "") aliceData
        (pushDB (some ⟨true, true, 100⟩) (some ⟨true, true, 250⟩))).out
      = .respond 200 "\"\"" ∧
    repoField (PutRepositoryImages demoEnv (demoRequest aliceAuth "") aliceData
        (pushDB (some ⟨true, true, 100⟩) (some ⟨true, true, 250⟩))).db
      ("alice", "demo") "Size" = none ∧
    repoField (PutRepositoryImages demoEnv (demoRequest aliceAuth "") aliceData
        (pushDB (some ⟨true, true, 100⟩) (some ⟨true, true, 250⟩))).db
      ("alice", "demo") "Checksumed" = some "350" ∧
    repoUploaded (PutRepositoryImages demoEnv (demoRequest aliceAuth "") aliceData
        (pushDB (some ⟨true, true, 100⟩) (some ⟨true, true, 250⟩))).db
      ("alice", "demo") = true := by
  decide

/-- C2: finalize leaves the repository's uploaded flag true only if it was true
already or the repository exists and every entry of its decoded manifest refers
to an Image that exists, is uploaded and is checksummed; in every other case it
responds with a status other than 200 and the store, hence the uploaded and
checksummed flags, is as before the call. -/
theorem PutRepositoryImages_uploaded_only_if_complete (env : Env) (req : Request)
    (data : Data) (db : DB) :
    (repoUploaded (PutRepositoryImages env req data db).db
          (req.Param ":namespace", req.Param ":repo_name") = true →
        repoUploaded db (req.Param ":namespace", req.Param ":repo_name") = true ∨
          manifestComplete env req db = true) ∧
    (manifestComplete env req db = false →
        (∃ status body, (PutRepositoryImages env req data db).out = .respond status body ∧
          status ≠ StatusOK) ∧
        (PutRepositoryImages env req data db).db = db) := by
  have key : manifestComplete env req db = false →
      (∃ status body, (PutRepositoryImages env req data db).out = .respond status body ∧
          status ≠ StatusOK) ∧
        (PutRepositoryImages env req data db).db = db := by
    intro hc
    obtain ⟨status, body, hres, hs⟩ := PutRepositoryImages_incomplete env req data db hc
    exact halt_not_ok db _ status body hres hs
  refine ⟨fun h => ?_, key⟩
  cases hc : manifestComplete env req db with
  | true => exact Or.inr rfl
  | false =>
    rw [(key hc).2] at h
    exact Or.inl h

/-- C2 at the push of `alice/demo` where `img2` is uploaded but not checksummed:
the manifest is not complete, finalize responds with a status other than 200
and the store is unchanged. -/
theorem PutRepositoryImages_uploaded_only_if_complete_witness :
    manifestComplete demoEnv (demoRequest aliceAuth "")
        (pushDB (some ⟨true, true, 100⟩) (some ⟨true, false, 250⟩)) = false ∧
    ((∃ status body,
        (PutRepositoryImages demoEnv (demoRequest aliceAuth "") aliceData
          (pushDB (some ⟨true, true, 100⟩) (some ⟨true, false, 250⟩))).out
          = .respond status body ∧ status ≠ StatusOK) ∧
      (PutRepositoryImages demoEnv (demoRequest aliceAuth "") aliceData
        (pushDB (some ⟨true, true, 100⟩) (some ⟨true, false, 250⟩))).db
        = pushDB (some ⟨true, true, 100⟩) (some ⟨true, false, 250⟩)) :=
  ⟨by decide,
    (PutRepositoryImages_uploaded_only_if_complete demoEnv (demoRequest aliceAuth "") aliceData
      (pushDB (some ⟨true, true, 100⟩) (some ⟨true, false, 250⟩))).2 (by decide)⟩

/-- An entry that is not uploaded, or has no record, makes the manifest
incomplete. -/
theorem manifestComplete_false_of_mem (env : Env) (req : Request) (db : DB) (repo : Fields)
    (i : JMap) (hr : db.repos (req.Param ":namespace", req.Param ":repo_name") = some repo)
    (hmem : i ∈ env.Unmarshal repo.JSON) (hi : entryComplete db i = false) :
    manifestComplete env req db = false := by
  unfold manifestComplete
  rw [hr]
  cases hall : (env.Unmarshal repo.JSON).all (entryComplete db) with
  | false => simp [hall]
  | true =>
    rw [List.all_eq_true] at hall
    rw [hall i hmem] at hi
    cases hi

/-- C3 (amended): when the manifest of an existing repository contains an Image
that is not uploaded, wherever it sits, finalize answers with a status other
than 200 and writes nothing, so the checksummed flag is not set; and when
every entry before that one is complete (lookups succeeding), the answer is
400 with the message that the image layer upload is not complete. -/
theorem PutRepositoryImages_not_uploaded (env : Env) (req : Request) (data : Data) (db : DB)
    (repo : Fields) (i : JMap)
    (hr : db.repos (req.Param ":namespace", req.Param ":repo_name") = some repo)
    (hmem : i ∈ env.Unmarshal repo.JSON)
    (hi : entryNotUploaded db i = true) :
    (∃ status body, (PutRepositoryImages env req data db).out = .respond status body ∧
      status ≠ StatusOK) ∧
    (PutRepositoryImages env req data db).db = db ∧
    (∀ pre post : List JMap,
      env.fails (.RepositoryGet (req.Param ":namespace") (req.Param ":repo_name")) = false →
      env.Unmarshal repo.JSON = pre ++ i :: post →
      (∀ j ∈ pre, entryComplete db j = true) →
      (∀ j ∈ pre ++ [i], env.fails (.ImageGet (j.index "id")) = false) →
      PutRepositoryImages env req data db =
        halt db StatusBadRequest
          "\x7b\"error\":\"The image layer upload not complete, please try again.\"\x7d") := by
  unfold entryNotUploaded at hi
  cases him : db.images (i.index "id") with
  | none => simp [him] at hi
  | some image =>
    simp [him] at hi
    have hinc : entryComplete db i = false := by simp [entryComplete, him, hi]
    have hmc := manifestComplete_false_of_mem env req db repo i hr hmem hinc
    obtain ⟨status, body, hres, hs⟩ := PutRepositoryImages_incomplete env req data db hmc
    refine ⟨(halt_not_ok db _ status body hres hs).1,
      (halt_not_ok db _ status body hres hs).2, ?_⟩
    intro pre post hf hm hpre hok
    have hok1 : ∀ j ∈ pre, env.fails (.ImageGet (j.index "id")) = false :=
      fun j hj => hok j (List.mem_append_left _ hj)
    have hok2 : env.fails (.ImageGet (i.index "id")) = false :=
      hok i (List.mem_append_right _ (List.mem_singleton_self _))
    simp [PutRepositoryImages, Repository.Get, hf, hr, hm,
      imagesLoop_append env db pre (i :: post) 0 hpre hok1, imagesLoop, Image.Get, hok2, him, hi]

/-- C3 at the push of `alice/demo` where `img1` is complete and `img2` is not
uploaded. -/
theorem PutRepositoryImages_not_uploaded_witness :
    (∃ status body,
      (PutRepositoryImages demoEnv (demoRequest aliceAuth "") aliceData
        (pushDB (some ⟨true, true, 100⟩) (some ⟨false, false, 250⟩))).out
        = .respond status body ∧ status ≠ StatusOK) ∧
    (PutRepositoryImages demoEnv (demoRequest aliceAuth "") aliceData
        (pushDB (some ⟨true, true, 100⟩) (some ⟨false, false, 250⟩))).db
      = pushDB (some ⟨true, true, 100⟩) (some ⟨false, false, 250⟩) ∧
    PutRepositoryImages demoEnv (demoRequest aliceAuth "") aliceData
        (pushDB (some ⟨true, true, 100⟩) (some ⟨false, false, 250⟩))
      = halt (pushDB (some ⟨true, true, 100⟩) (some ⟨false, false, 250⟩)) StatusBadRequest
          "\x7b\"error\":\"The image layer upload not complete, please try again.\"\x7d" :=
  have h := PutRepositoryImages_not_uploaded demoEnv (demoRequest aliceAuth "") aliceData
    (pushDB (some ⟨true, true, 100⟩) (some ⟨false, false, 250⟩)) pushedRecord
    [("id", "img2"), ("Tag", "latest")] rfl (by decide) (by decide)
  ⟨h.1, h.2.1,
    h.2.2 [[("id", "img1"), ("Tag", "latest")]] [] rfl rfl (by decide) (by decide)⟩

/-- C3 as stated fails: at the push of `alice/demo` where `img1` is uploaded but
not checksummed and `img2` is not uploaded, the manifest contains an Image that
is not uploaded, yet finalize answers with the checksum message, not with the
message that the upload is not complete. -/
theorem PutRepositoryImages_not_uploaded_counterexample :
    demoEntries.any (entryNotUploaded
        (pushDB (some ⟨true, false, 100⟩) (some ⟨false, false, 250⟩))) = true ∧
    (PutRepositoryImages demoEnv (demoRequest aliceAuth "") aliceData
        (pushDB (some ⟨true, false, 100⟩) (some ⟨false, false, 250⟩))).out
      = .respond 400
          "\x7b\"error\":\"The image layer upload checksumed error, please try again.\"\x7d" ∧
    (PutRepositoryImages demoEnv (demoRequest aliceAuth "") aliceData
        (pushDB (some ⟨true, false, 100⟩) (some ⟨false, false, 250⟩))).out
      ≠ .respond 400
          "\x7b\"error\":\"The image layer upload not complete, please try again.\"\x7d" := by
  decide

/-- C4 (amended): when the repository does not exist (its lookup succeeding),
finalize answers 404 and writes nothing; when it exists and its manifest
references an image id without a record, every entry before that one being
complete (lookups succeeding), finalize answers 404 with the image-not-found
body and writes nothing. -/
theorem PutRepositoryImages_not_found (env : Env) (req : Request) (data : Data) (db : DB)
    (hf : env.fails (.RepositoryGet (req.Param ":namespace") (req.Param ":repo_name")) = false) :
    (db.repos (req.Param ":namespace", req.Param ":repo_name") = none →
      PutRepositoryImages env req data db =
        halt db StatusNotFound "\x7b\"error\":\"Cloud not found repository.\"\x7d") ∧
    (∀ (repo : Fields) (pre : List JMap) (i : JMap) (post : List JMap),
      db.repos (req.Param ":namespace", req.Param ":repo_name") = some repo →
      env.Unmarshal repo.JSON = pre ++ i :: post →
      (∀ j ∈ pre, entryComplete db j = true) →
      (∀ j ∈ pre ++ [i], env.fails (.ImageGet (j.index "id")) = false) →
      entryMissing db i = true →
      PutRepositoryImages env req data db =
        halt db StatusNotFound "\x7b\"error\":\"Cloud not found image.\"\x7d") := by
  refine ⟨fun hr => ?_, fun repo pre i post hr hm hpre hok hi => ?_⟩
  · simp [PutRepositoryImages, Repository.Get, hf, hr]
  · have hok1 : ∀ j ∈ pre, env.fails (.ImageGet (j.index "id")) = false :=
      fun j hj => hok j (List.mem_append_left _ hj)
    have hok2 : env.fails (.ImageGet (i.index "id")) = false :=
      hok i (List.mem_append_right _ (List.mem_singleton_self _))
    have him : db.images (i.index "id") = none := by
      simpa [entryMissing, Option.isNone_iff_eq_none] using hi
    simp [PutRepositoryImages, Repository.Get, hf, hr, hm,
      imagesLoop_append env db pre (i :: post) 0 hpre hok1, imagesLoop, Image.Get, hok2, him]

/-- C4 at `alice/demo`: with no repository record, and with a record whose
manifest lists the complete `img1` and then `img2`, which has no record. -/
theorem PutRepositoryImages_not_found_witness :
    PutRepositoryImages demoEnv (demoRequest aliceAuth "") aliceData
        (demoDB none (demoImages none none))
      = halt (demoDB none (demoImages none none)) StatusNotFound
          "\x7b\"error\":\"Cloud not found repository.\"\x7d" ∧
    PutRepositoryImages demoEnv (demoRequest aliceAuth "") aliceData
        (pushDB (some ⟨true, true, 100⟩) none)
      = halt (pushDB (some ⟨true, true, 100⟩) none) StatusNotFound
          "\x7b\"error\":\"Cloud not found image.\"\x7d" :=
  ⟨(PutRepositoryImages_not_found demoEnv (demoRequest aliceAuth "") aliceData
      (demoDB none (demoImages none none)) rfl).1 rfl,
    (PutRepositoryImages_not_found demoEnv (demoRequest aliceAuth "") aliceData
      (pushDB (some ⟨true, true, 100⟩) none) rfl).2 pushedRecord
      [[("id", "img1"), ("Tag", "latest")]] [("id", "img2"), ("Tag", "latest")] []
      rfl rfl (by decide) (by decide) (by decide)⟩

/-- C4 as stated fails: at the push of `alice/demo` where `img1` is not uploaded
and `img2` has no record, the manifest references an image id without a record,
yet finalize answers 400, not 404. -/
theorem PutRepositoryImages_not_found_counterexample :
    demoEntries.any (entryMissing (pushDB (some ⟨false, false, 100⟩) none)) = true ∧
    (PutRepositoryImages demoEnv (demoRequest aliceAuth "") aliceData
        (pushDB (some ⟨false, false, 100⟩) none)).out
      = .respond 400
          "\x7b\"error\":\"The image layer upload not complete, please try again.\"\x7d" ∧
    (PutRepositoryImages demoEnv (demoRequest aliceAuth "") aliceData
        (pushDB (some ⟨false, false, 100⟩) none)).out.status ≠ some StatusNotFound := by
  decide

/-! ## `Prepare` and the identity checks -/

/-- When `Prepare` lets the handler run, `Data` holds exactly the keys
`"username"` and `"passwd"`, both strings. -/
theorem Prepare_continue (env : Env) (req : Request) (db : DB) (data : Data)
    (h : Prepare env req db = .continue data) :
    ∃ username passwd : String,
      data = [("username", .str username), ("passwd", .str passwd)] := by
  unfold Prepare at h
  split at h
  · split at h
    · cases h
    · split at h
      · cases h
      · split at h
        · cases h
        · rename_i username passwd _
          split at h
          · cases h
          · split at h
            · exact ⟨username, passwd, by cases h; rfl⟩
            · cases h
  · cases h

/-- After `Prepare`, `Data` has no key `"user"`. -/
theorem Prepare_no_user (env : Env) (req : Request) (db : DB) (data : Data)
    (h : Prepare env req db = .continue data) : data.lookup "user" = none := by
  obtain ⟨username, passwd, rfl⟩ := Prepare_continue env req db data h
  simp [List.lookup]

/-- For every identity authenticated by `Prepare` whose username differs from
the namespace in the request path, `PutRepository` answers 400 and leaves every
store as it was, so no Repository record is created or replaced. -/
theorem PutRepository_foreign_identity (env : Env) (req : Request) (db : DB) (data : Data)
    (username : String)
    (hprep : Prepare env req db = .continue data)
    (huser : data.lookup "username" = some (.str username))
    (hne : username ≠ req.Param ":namespace") :
    PutRepository env req data db =
        halt db StatusBadRequest "\x7b\"错误\":\"用户名和仓库的命名空间不同\"\x7d" := by
  obtain ⟨u, p, rfl⟩ := Prepare_continue env req db data hprep
  have hu : u = username := by
    simp [List.lookup] at huser
    exact huser
  subst hu
  have hp : List.lookup "passwd"
      [("username", DataValue.str u), ("passwd", DataValue.str p)] = some (.str p) := by
    simp [List.lookup]
  have hu' : List.lookup "username"
      [("username", DataValue.str u), ("passwd", DataValue.str p)] = some (.str u) := by
    simp [List.lookup]
  unfold PutRepository
  simp only [hu', hp]
  simp [hne]

/-- C5: `bob:pw` passes `Prepare` and his username differs from the namespace
`alice`.  His `PutRepository` on `alice/demo` is rejected with 400 and writes
nothing, as the claim says; but his `PutTag` answers 200 and overwrites the tag
`alice/demo:latest`, and his `PutRepositoryImages` answers 200 and turns the
uploaded flag of `alice/demo` from false to true. -/
theorem PutTag_and_Finalize_accept_foreign_identity :
    Prepare demoEnv (demoRequest bobAuth "\"abc123\"") (pushDB none none)
      = .continue bobData ∧
    "bob" ≠ (demoRequest bobAuth "\"abc123\"").Param ":namespace" ∧
    (PutRepository demoEnv (demoRequest bobAuth demoManifest) bobData
        (pushDB none none)).out.status = some StatusBadRequest ∧
    (PutTag demoEnv (demoRequest bobAuth "\"abc123\"") bobData
        (demoTagged (some pushedRecord) "old999")).out
      = .respond 200 "\"\"" ∧
    (demoTagged (some pushedRecord) "old999").tags ("alice", "demo", "latest")
      = some "old999" ∧
    (PutTag demoEnv (demoRequest bobAuth "\"abc123\"") bobData
        (demoTagged (some pushedRecord) "old999")).db.tags ("alice", "demo", "latest")
      = some "abc123" ∧
    (PutRepositoryImages demoEnv (demoRequest bobAuth "") bobData
        (pushDB (some ⟨true, true, 100⟩) (some ⟨true, true, 250⟩))).out
      = .respond 200 "\"\"" ∧
    repoUploaded (pushDB (some ⟨true, true, 100⟩) (some ⟨true, true, 250⟩))
        ("alice", "demo") = false ∧
    repoUploaded
      (PutRepositoryImages demoEnv (demoRequest bobAuth "") bobData
        (pushDB (some ⟨true, true, 100⟩) (some ⟨true, true, 250⟩))).db
        ("alice", "demo") = true := by
  decide

/-! ## `PutTag` -/

/-- C6: with no Repository record for `alice/demo`, a well-formed body and no
failing store call, `PutTag` answers 200 and inserts the Tag mapping. -/
theorem PutTag_without_repository :
    (demoDB none (demoImages none none)).repos ("alice", "demo") = none ∧
    (PutTag demoEnv (demoRequest aliceAuth "\"abc123\"") aliceData
        (demoDB none (demoImages none none))).out
      = .respond 200 "\"\"" ∧
    (PutTag demoEnv (demoRequest aliceAuth "\"abc123\"") aliceData
        (demoDB none (demoImages none none))).db.tags ("alice", "demo", "latest")
      = some "abc123" := by
  refine ⟨rfl, ?_, ?_⟩ <;> decide

/-- C7: for an empty body and for a body without quotes the pattern has no match,
and `PutTag` ends in the index-out-of-range panic of `imageIds[1]` instead of a
400 response, on the insert path and on the update path alike. -/
theorem PutTag_unmatched_body_panics :
    FindStringSubmatch "" = [] ∧ FindStringSubmatch "abc123" = [] ∧
    (PutTag demoEnv (demoRequest aliceAuth "") aliceData (pushDB none none)).out
      = .panic "index out of range [1]" ∧
    (PutTag demoEnv (demoRequest aliceAuth "abc123") aliceData (pushDB none none)).out
      = .panic "index out of range [1]" ∧
    (PutTag demoEnv (demoRequest aliceAuth "") aliceData
        (demoTagged (some pushedRecord) "old999")).out
      = .panic "index out of range [1]" ∧
    (PutTag demoEnv (demoRequest aliceAuth "") aliceData (pushDB none none)).out.status
      ≠ some StatusBadRequest := by
  decide

/-! ## The read path -/

/-- After `Prepare`, `GetRepositoryImages` on an active private repository (its
lookup succeeding) ends in the failed type assertion, whoever asks. -/
theorem GetRepositoryImages_private_after_Prepare (env : Env) (req : Request) (db : DB)
    (data : Data) (repo : Fields)
    (hprep : Prepare env req db = .continue data)
    (hf : env.fails
      (.RepositoryGetActived (req.Param ":namespace") (req.Param ":repo_name")) = false)
    (hr : db.repos (req.Param ":namespace", req.Param ":repo_name") = some repo)
    (hup : repo.Uploaded = true) (hpriv : repo.Privated = true) :
    GetRepositoryImages env req data db =
      crash db "interface conversion: Data[\"user\"] is not *models.User" := by
  have hno := Prepare_no_user env req db data hprep
  simp [GetRepositoryImages, Repository.GetActived, hf, hr, hup, hpriv, hno]

/-- C9: on the active private repository `alice/demo`, after a successful
`Prepare`, `GetRepositoryImages` ends in a panic both for the owner `alice` (the
claim says 200 with the manifest) and for `bob` (the claim says 401). -/
theorem GetRepositoryImages_private_panics :
    Prepare demoEnv (demoRequest aliceAuth "")
        (demoDB (some (demoRecord "true" "true")) (demoImages none none))
      = .continue aliceData ∧
    (GetRepositoryImages demoEnv (demoRequest aliceAuth "") aliceData
        (demoDB (some (demoRecord "true" "true")) (demoImages none none))).out
      = .panic "interface conversion: Data[\"user\"] is not *models.User" ∧
    Prepare demoEnv (demoRequest bobAuth "")
        (demoDB (some (demoRecord "true" "true")) (demoImages none none))
      = .continue bobData ∧
    (GetRepositoryImages demoEnv (demoRequest bobAuth "") bobData
        (demoDB (some (demoRecord "true" "true")) (demoImages none none))).out
      = .panic "interface conversion: Data[\"user\"] is not *models.User" := by
  decide

/-- C10: on the active private repository `alice/demo`, `GetRepositoryTags` asked
by `bob` answers 200 with an empty body (the claim says 401), while
`GetRepositoryImages` on the same input does not answer 200. -/
theorem GetRepositoryTags_private_foreign :
    (demoRecord "true" "true").Privated = true ∧
    Prepare demoEnv (demoRequest bobAuth "")
        (demoDB (some (demoRecord "true" "true")) (demoImages none none))
      = .continue bobData ∧
    (GetRepositoryTags demoEnv (demoRequest bobAuth "") bobData
        (demoDB (some (demoRecord "true" "true")) (demoImages none none))).out
      = .respond 200 "" ∧
    (GetRepositoryImages demoEnv (demoRequest bobAuth "") bobData
        (demoDB (some (demoRecord "true" "true")) (demoImages none none))).out.status
      ≠ some StatusOK := by
  decide

/-! ## `PutTag` as an upsert -/

/-- The run of alphanumerics before a non-alphanumeric character is taken
whole. -/
theorem takeWhile_alnum_append (l : List Char) (d : Char) (t : List Char)
    (hl : ∀ c ∈ l, isAlnum c = true) (hd : isAlnum d = false) :
    (l ++ d :: t).takeWhile isAlnum = l ∧ (l ++ d :: t).dropWhile isAlnum = d :: t := by
  induction l with
  | nil => simp [List.takeWhile, List.dropWhile, hd]
  | cons c l ih =>
    have hc := hl c (List.mem_cons_self _ _)
    have ih' := ih (fun x hx => hl x (List.mem_cons_of_mem _ hx))
    simp [List.takeWhile, List.dropWhile, hc, ih'.1, ih'.2]

/-- On a body that is a quoted non-empty alphanumeric id, the pattern captures
the id. -/
theorem FindStringSubmatch_quoted (id : String) (hne : id.toList ≠ [])
    (halnum : ∀ c ∈ id.toList, isAlnum c = true) :
    FindStringSubmatch ("\"" ++ id ++ "\"") = ["\"" ++ id ++ "\"", id] := by
  have htl : ("\"" ++ id ++ "\"").toList = '"' :: (id.toList ++ ['"']) := by
    simp [String.toList]
  have hq : isAlnum '"' = false := by decide
  obtain ⟨ht, hd⟩ := takeWhile_alnum_append id.toList '"' [] halnum hq
  unfold FindStringSubmatch
  rw [htl]
  cases hid : id.toList with
  | nil => exact absurd hid hne
  | cons g gs =>
    rw [hid] at ht hd
    have hm : findMatch ('"' :: (g :: gs ++ ['"'])) = some (g :: gs) := by
      simp only [findMatch, matchHere, ht, hd]
      simp
    rw [hm]
    have hmk : String.mk (g :: gs) = id := by
      rw [← hid]
      rfl
    simp [hmk]


/-- C8: `PutTag` is an upsert.  For a body that is a quoted non-empty alphanumeric
id, with no store call failing and whatever the Tag store held, `PutTag` answers
200, the key (namespace, repository, tag) maps to the id afterwards, every other
key and the other stores are as before, and a second identical call answers 200
again and leaves the store equal to the one after the first call. -/
theorem PutTag_upsert (env : Env) (req : Request) (data : Data) (db : DB) (id : String)
    (hfails : ∀ c, env.fails c = false)
    (hne : id.toList ≠ [])
    (halnum : ∀ c ∈ id.toList, isAlnum c = true)
    (hbody : req.Body = "\"" ++ id ++ "\"") :
    (PutTag env req data db).out = .respond StatusOK "\"\"" ∧
    (PutTag env req data db).db.tags
        (req.Param ":namespace", req.Param ":repo_name", req.Param ":tag") = some id ∧
    (∀ k, k ≠ (req.Param ":namespace", req.Param ":repo_name", req.Param ":tag") →
      (PutTag env req data db).db.tags k = db.tags k) ∧
    (PutTag env req data db).db.repos = db.repos ∧
    (PutTag env req data db).db.images = db.images ∧
    (PutTag env req data (PutTag env req data db).db).out = .respond StatusOK "\"\"" ∧
    (PutTag env req data (PutTag env req data db).db).db = (PutTag env req data db).db := by
  have hm := FindStringSubmatch_quoted id hne halnum
  have step : ∀ d : DB,
      PutTag env req data d =
        { out := .respond StatusOK "\"\""
          db := { d with tags := fun k =>
            (if k = (req.Param ":namespace", req.Param ":repo_name", req.Param ":tag") then
              some id else d.tags k) }
          session := []
          headers := [("Content-Type", "application/json;charset=UTF-8")] } := by
    intro d
    cases ht : d.tags (req.Param ":namespace", req.Param ":repo_name", req.Param ":tag") with
    | none =>
      simp [PutTag, Repository.Get, Tag.Get, Tag.Insert, hfails, hbody, hm, ht]
    | some old =>
      simp only [PutTag, Repository.Get, Tag.Get, Tag.UpdateImageId, hfails, hbody, hm, ht]
      simp
      funext k
      by_cases hk : k = (req.Param ":namespace", req.Param ":repo_name", req.Param ":tag")
      · subst hk
        simp [ht]
      · simp [hk]
  refine ⟨?_, ?_, ?_, ?_, ?_, ?_, ?_⟩
  · rw [step]
  · rw [step]
    simp
  · intro k hk
    rw [step]
    simp [hk]
  · rw [step]
  · rw [step]
  · rw [step]
  · rw [step, step]
    have ht : (fun k : TagKey =>
        if k = (req.Param ":namespace", req.Param ":repo_name", req.Param ":tag") then some id
        else if k = (req.Param ":namespace", req.Param ":repo_name", req.Param ":tag") then
          some id
        else db.tags k) =
        fun k =>
          if k = (req.Param ":namespace", req.Param ":repo_name", req.Param ":tag") then some id
          else db.tags k := by
      funext k
      by_cases hk : k = (req.Param ":namespace", req.Param ":repo_name", req.Param ":tag")
      · simp [hk]
      · simp [hk]
    simp only [ht]

/-- C8 for the id `abc123` on `alice/demo:latest`, which pointed to `old999`. -/
theorem PutTag_upsert_witness :
    (PutTag demoEnv (demoRequest aliceAuth "\"abc123\"") aliceData
        (demoTagged (some pushedRecord) "old999")).db.tags ("alice", "demo", "latest")
      = some "abc123" ∧
    (PutTag demoEnv (demoRequest aliceAuth "\"abc123\"") aliceData
        (PutTag demoEnv (demoRequest aliceAuth "\"abc123\"") aliceData
          (demoTagged (some pushedRecord) "old999")).db).db
      = (PutTag demoEnv (demoRequest aliceAuth "\"abc123\"") aliceData
          (demoTagged (some pushedRecord) "old999")).db :=
  have h := PutTag_upsert demoEnv (demoRequest aliceAuth "\"abc123\"") aliceData
    (demoTagged (some pushedRecord) "old999") "abc123" (fun _ => rfl) (by decide) (by decide) rfl
  ⟨h.2.1, h.2.2.2.2.2.2⟩

/-! ## Finalize on a manifest that decodes to no entries -/

/-- The response and the Repository store left by the three writes do not
depend on the Image store. -/
theorem finalizeWrites_images (env : Env) (db : DB) (images : String → Option Image)
    (ns repo : String) (size : Int) :
    (finalizeWrites env { db with images := images } ns repo size).out
        = (finalizeWrites env db ns repo size).out ∧
    (finalizeWrites env { db with images := images } ns repo size).db.repos
        = (finalizeWrites env db ns repo size).db.repos := by
  unfold finalizeWrites Repository.UpdateRepositoryInfo
  cases env.fails (.RepositoryUpdateInfo ns repo "Uploaded" (FormatBool true)) <;>
    cases env.fails (.RepositoryUpdateInfo ns repo "Checksumed" (FormatBool true)) <;>
    cases env.fails (.RepositoryUpdateInfo ns repo "Checksumed" (FormatInt size)) <;>
    simp [halt]

/-- `PutRepository` by the namespace owner stores the request body as the
manifest, whatever the body is. -/
theorem PutRepository_stores_body (env : Env) (req : Request) (db : DB) (passwd : String)
    (hadd : env.fails
      (.RepositoryAdd (req.Param ":namespace") (req.Param ":repo_name")) = false) :
    ∃ repo : Fields,
      (PutRepository env req
          [("username", .str (req.Param ":namespace")), ("passwd", .str passwd)] db).db.repos
        (req.Param ":namespace", req.Param ":repo_name") = some repo ∧
      repo.JSON = req.Body := by
  have hp : List.lookup "passwd"
      [("username", DataValue.str (req.Param ":namespace")), ("passwd", DataValue.str passwd)]
        = some (.str passwd) := by
    simp [List.lookup]
  have hu : List.lookup "username"
      [("username", DataValue.str (req.Param ":namespace")), ("passwd", DataValue.str passwd)]
        = some (.str (req.Param ":namespace")) := by
    simp [List.lookup]
  unfold PutRepository
  simp only [hu, hp]
  cases hs : env.fails (.RepositorySetAgent (req.Param ":namespace") (req.Param ":repo_name"))
  · exact ⟨_, by simp [Repository.Add, Repository.SetAgent, hadd, hs]; rfl,
      by simp [Fields.JSON, Fields.set]⟩
  · exact ⟨_, by simp [Repository.Add, Repository.SetAgent, hadd, hs]; rfl,
      by simp [Fields.JSON, Fields.set]⟩

/-- C11: finalize does not look at the result of decoding the manifest.  For
every existing repository (its lookup succeeding) whose stored manifest decodes
to no entries, the loop makes no iteration, so no Image is looked up and the
outcome does not depend on the Image store; the computed size is 0 and the
handler is exactly the three writes with size 0.  When these writes succeed the
response is 200 with body `""`, the record holds all three written values and
the repository reads as uploaded. -/
theorem PutRepositoryImages_empty_manifest (env : Env) (req : Request) (data : Data) (db : DB)
    (repo : Fields)
    (hget : env.fails
      (.RepositoryGet (req.Param ":namespace") (req.Param ":repo_name")) = false)
    (hr : db.repos (req.Param ":namespace", req.Param ":repo_name") = some repo)
    (hempty : env.Unmarshal repo.JSON = []) :
    imagesLoop env db (env.Unmarshal repo.JSON) 0 = .done true true 0 ∧
    PutRepositoryImages env req data db =
      finalizeWrites env db (req.Param ":namespace") (req.Param ":repo_name") 0 ∧
    (∀ images : String → Option Image,
      (PutRepositoryImages env req data { db with images := images }).out
          = (PutRepositoryImages env req data db).out ∧
      (PutRepositoryImages env req data { db with images := images }).db.repos
          = (PutRepositoryImages env req data db).db.repos) ∧
    (env.fails (.RepositoryUpdateInfo (req.Param ":namespace") (req.Param ":repo_name")
        "Uploaded" "true") = false →
      env.fails (.RepositoryUpdateInfo (req.Param ":namespace") (req.Param ":repo_name")
        "Checksumed" "true") = false →
      env.fails (.RepositoryUpdateInfo (req.Param ":namespace") (req.Param ":repo_name")
        "Checksumed" "0") = false →
      (PutRepositoryImages env req data db).out = .respond StatusOK "\"\"" ∧
      (PutRepositoryImages env req data db).db.repos
          (req.Param ":namespace", req.Param ":repo_name")
        = some (((repo.set "Uploaded" "true").set "Checksumed" "true").set "Checksumed" "0") ∧
      repoUploaded (PutRepositoryImages env req data db).db
          (req.Param ":namespace", req.Param ":repo_name") = true) := by
  have hrun : ∀ d : DB,
      d.repos (req.Param ":namespace", req.Param ":repo_name") = some repo →
      PutRepositoryImages env req data d =
        finalizeWrites env d (req.Param ":namespace") (req.Param ":repo_name") 0 := by
    intro d hd
    have h := PutRepositoryImages_complete env req data d repo hget hd
      (by rw [hempty]; intro j hj; cases hj) (by rw [hempty]; intro j hj; cases hj)
    rw [h, hempty]
    rfl
  refine ⟨by rw [hempty]; rfl, hrun db hr, fun images => ?_, fun h1 h2 h3 => ?_⟩
  · rw [hrun db hr, hrun { db with images := images } hr]
    exact finalizeWrites_images env db images _ _ 0
  · have h0 : FormatInt 0 = "0" := by decide
    have ht : FormatBool true = "true" := rfl
    rw [hrun db hr]
    simp [finalizeWrites, Repository.UpdateRepositoryInfo, h0, ht, h1, h2, h3, hr, repoUploaded,
      Fields.Uploaded, Fields.set]

/-- C11 for `alice/demo` created by `PutRepository` with a body that is not JSON:
the record stores the body as it is, the body decodes to no entries, and
finalize on the store `PutRepository` left answers 200 and marks the repository
uploaded although the Image store is empty. -/
theorem PutRepositoryImages_empty_manifest_witness :
    (PutRepository demoEnv (demoRequest aliceAuth brokenManifest) aliceData
        (demoDB none (demoImages none none))).out = .respond StatusOK "\"\"" ∧
    (PutRepositoryImages demoEnv (demoRequest aliceAuth "") aliceData
        (PutRepository demoEnv (demoRequest aliceAuth brokenManifest) aliceData
          (demoDB none (demoImages none none))).db).out = .respond StatusOK "\"\"" ∧
    repoUploaded
      (PutRepositoryImages demoEnv (demoRequest aliceAuth "") aliceData
        (PutRepository demoEnv (demoRequest aliceAuth brokenManifest) aliceData
          (demoDB none (demoImages none none))).db).db ("alice", "demo") = true :=
  have h := PutRepositoryImages_empty_manifest demoEnv (demoRequest aliceAuth "") aliceData
    (PutRepository demoEnv (demoRequest aliceAuth brokenManifest) aliceData
      (demoDB none (demoImages none none))).db
    ((Fields.set (fun _ => none) "JSON" brokenManifest).set "Agent" "") rfl rfl (by decide)
  ⟨by decide, (h.2.2.2 rfl rfl rfl).1, (h.2.2.2 rfl rfl rfl).2.2⟩

end Wharf
